import Mathlib

/-!
Verification of `src/main_sum.cpp`.

A shallow embedding of the reduction benchmark: the generator loop with its
reference sum, the scalar reducer, the OpenMP reduction, the device trial with
its zero padding, the verifier `raiseFail`, and the benchmarking driver.

Machine model. `unsigned int` is a natural number below `2^32` and `+=` on it
wraps modulo `2^32`; `size_t` is 64 bits wide and its arithmetic wraps modulo
`2^64`; `int` is 32 bits wide and incrementing `INT_MAX` is undefined
behaviour. Undefined behaviour (signed overflow of a loop counter, an index
outside a vector) is the result `none` of a loop or a trial. An exception is a
result of its own: `raiseFail` returns the error it throws, and `resize`, `pad`
and `gpuSetup` return `none` when `as.resize` throws `std::length_error`.

The collaborators that `main_sum.cpp` only calls are parameters of the model:
`FastRandom::next`, the OpenMP schedule, the device kernel `sum`, and the
value of `__FILE__`.
-/

namespace MainSum

/-! ## Machine integers -/

/-- Largest `unsigned int`: `std::numeric_limits<unsigned int>::max()`. -/
def UINT_MAX : Nat := 4294967295

/-- Largest `int`. -/
def INT_MAX : Nat := 2147483647

/-- Number of values of the 64-bit `size_t`. -/
def SIZE_RANGE : Nat := 18446744073709551616

/-- The statement `s += a` on `unsigned int`: addition modulo `2^32`. -/
def uadd (s a : Nat) : Nat := (s + a) % 4294967296

/-- The cast `(unsigned int) v`. -/
def toUInt (v : Int) : Nat := (v % 4294967296).toNat

/-! ## The counting loop -/

/-- The loop `for (int i = 0; i < n; ++i) body` with `n` an `unsigned int`,
started at counter `i` with loop state `acc`. The comparison `i < n` converts
the non-negative `i` to `unsigned int`; `++i` at `INT_MAX` is signed overflow.
The first argument bounds the number of iterations; `n - i` is always enough. -/
def forInt {α : Type} (n : Nat) (body : Nat → α → Option α) : Nat → Nat → α → Option α
  | 0, i, acc => if i < n then none else some acc
  | k + 1, i, acc =>
    if i < n then
      match body i acc with
      | none => none
      | some acc' => if i = INT_MAX then none else forInt n body k (i + 1) acc'
    else some acc

/-- The loop body run once for each index of a list, in the list's order. -/
def forEach {α : Type} (body : Nat → α → Option α) : List Nat → α → Option α
  | [], acc => some acc
  | i :: rest, acc =>
    match body i acc with
    | none => none
    | some acc' => forEach body rest acc'

/-! ## Generator loop (lines 24-31) -/

/-- Body of the generator loop:
`as[i] = (unsigned int) r.next(0, UINT_MAX / n); reference_sum += as[i];`
on the state `(as, reference_sum, r)`. `next r lo hi` is `r.next(lo, hi)`:
the value it returns and the generator it leaves. -/
def genStep {σ : Type} (next : σ → Nat → Nat → Int × σ) (n : Nat) (i : Nat)
    (st : List Nat × Nat × σ) : Option (List Nat × Nat × σ) :=
  let v := next st.2.2 0 (UINT_MAX / n)
  let as := st.1.set i (toUInt v.1)
  match as[i]? with
  | none => none
  | some a => some (as, uadd st.2.1 a, v.2)

/-- Lines 24-31: `reference_sum = 0`, `as(n, 0)`, then the generator loop.
Returns the filled `as`, `reference_sum` and the generator state. -/
def generate {σ : Type} (next : σ → Nat → Nat → Int × σ) (n : Nat) (r : σ) :
    Option (List Nat × Nat × σ) :=
  forInt n (genStep next n) n 0 (List.replicate n 0, 0, r)

/-! ## Scalar reducer (lines 36-39) -/

/-- Body `sum += as[i];`. -/
def sumStep (as : List Nat) (i : Nat) (sum : Nat) : Option Nat :=
  match as[i]? with
  | none => none
  | some a => some (uadd sum a)

/-- Lines 36-39: `unsigned int sum = 0; for (int i = 0; i < n; ++i) sum += as[i];`. -/
def scalarSum (n : Nat) (as : List Nat) : Option Nat :=
  forInt n (sumStep as) n 0 0

/-! ## Verifier (lines 8-17) -/

/-- The function `raiseFail(a, b, message, filename, line)`: the text written to
`std::cerr`, and either normal return or the `what()` of the thrown
`std::runtime_error`. -/
def raiseFail {T : Type} [DecidableEq T] [ToString T] (a b : T)
    (message filename : String) (line : Int) : String × Except String Unit :=
  if a ≠ b then
    (message ++ " But " ++ toString a ++ " != " ++ toString b ++ ", " ++ filename ++ ":"
      ++ toString line ++ "\n", Except.error message)
  else ("", Except.ok ())

/-! ## OpenMP reduction (lines 50-54) -/

/-- One worker of `#pragma omp parallel for reduction(+:sum)`: it runs the body
`sum += as[i]` on its private `sum` for the indices it was given, in order. -/
def sliceSum (as : List Nat) (slice : List Nat) (sum : Nat) : Option Nat :=
  forEach (sumStep as) slice sum

/-- End of the parallel region: every worker's private copy, initialised to 0,
is added to the shared `sum`, in the order the workers are listed. -/
def combine (as : List Nat) : List (List Nat) → Nat → Option Nat
  | [], sum => some sum
  | slice :: rest, sum =>
    match sliceSum as slice 0 with
    | none => none
    | some local_sum => combine as rest (uadd sum local_sum)

/-- Lines 50-54 under the schedule `slices` (the indices of each worker, the
workers in the order their results are combined): `unsigned int sum = 0;` and
the parallel loop. -/
def ompSum (slices : List (List Nat)) (as : List Nat) : Option Nat :=
  combine as slices 0

/-- A schedule of the loop `for (int i = 0; i < n; ++i)`: the workers' slices
together hold every index below `n` exactly once. -/
def Covers (slices : List (List Nat)) (n : Nat) : Prop :=
  List.Perm slices.flatten (List.range n)

/-! ## Device reducer (lines 68-89) -/

/-- Host and device memory the benchmark works on: the vector `as`, the device
buffer `as_gpu`, and the single cell of the device buffer `cs_gpu`. -/
structure Mem where
  as : List Nat
  as_gpu : List Nat
  cs_gpu : Nat
  deriving DecidableEq, Repr

/-- Line 70: `(n + work_group_size - 1) / work_group_size * work_group_size`
in `size_t`, every operation modulo `2^64`. A zero `work_group_size` divides
by zero in the source; the model is used with positive sizes only. -/
def n_gpu (n work_group_size : Nat) : Nat :=
  (((n + work_group_size) % SIZE_RANGE + SIZE_RANGE - 1) % SIZE_RANGE / work_group_size
    * work_group_size) % SIZE_RANGE

/-- The value of `max_size()` of a `std::vector<unsigned int>` where `size_t`
is 64 bits wide: `PTRDIFF_MAX / sizeof(unsigned int)`, which is `2^61 - 1`. -/
def max_size : Nat := 2305843009213693951

/-- The call `v.resize(k, x)` of `std::vector`. A `k` above `max_size()` makes
it throw `std::length_error` and leave `v` as it is: the result `none`.
Otherwise `v` is cut to its first `k` elements or gets copies of `x` appended
until it has `k` elements. -/
def resize (v : List Nat) (k x : Nat) : Option (List Nat) :=
  if k ≤ max_size then some (v.take k ++ List.replicate (k - v.length) x) else none

/-- Modelled from the spec: `resizeN` of the device buffer, which is not under
src/ ("typed device-resident buffer allocation with resize-by-count"). The
buffer gets `k` cells; cells that are new read as 0 until written. -/
def resizeN (buf : List Nat) (k : Nat) : List Nat :=
  buf.take k ++ List.replicate (k - buf.length) 0

/-- Modelled from the spec: `writeN` of the device buffer, which is not under
src/ ("write-from-host"). The first `k` host elements replace the first `k`
cells. -/
def writeN (buf host : List Nat) (k : Nat) : List Nat :=
  host.take k ++ buf.drop k

/-- Lines 70-71: `as.resize(n_gpu, 0)`; `none` when the call throws
`std::length_error`. -/
def pad (n work_group_size : Nat) (m : Mem) : Option Mem :=
  match resize m.as (n_gpu n work_group_size) 0 with
  | none => none
  | some as => some { m with as := as }

/-- Lines 73-75: `as_gpu.resizeN(n_gpu); as_gpu.writeN(as.data(), n_gpu);
cs_gpu.resizeN(1);`. The cell of `cs_gpu` keeps whatever it held. -/
def upload (n work_group_size : Nat) (m : Mem) : Mem :=
  let size := n_gpu n work_group_size
  { m with as_gpu := writeN (resizeN m.as_gpu size) m.as size }

/-- Lines 69-75; `none` when `as.resize` throws `std::length_error`, before
anything is uploaded. -/
def gpuSetup (n work_group_size : Nat) (m : Mem) : Option Mem :=
  match pad n work_group_size m with
  | none => none
  | some m1 => some (upload n work_group_size m1)

/-- Lines 83-86, one device trial: `gpu_sum = 0`, `cs_gpu.writeN(&gpu_sum, 1)`
puts it in the cell, `sum.exec` runs the kernel, `cs_gpu.readN(&gpu_sum, 1)`
reads the cell back. `kernel wg size input output` is what the kernel `sum`,
run over `WorkSize(wg, size)` on the input buffer, leaves in the output cell
that held `output`; the cell is 32 bits wide. -/
def gpuTrial (kernel : Nat → Nat → List Nat → Nat → Nat) (n work_group_size : Nat)
    (_iter : Nat) (m : Mem) : Option (Nat × Mem) :=
  let gpu_sum := 0
  let m1 := { m with cs_gpu := gpu_sum }
  let result := kernel work_group_size (n_gpu n work_group_size) m1.as_gpu m1.cs_gpu
  let m2 := { m1 with cs_gpu := result % 4294967296 }
  some (m2.cs_gpu, m2)

/-- An example of a kernel, one that accumulates into the output cell:
`out := out + sum of the input`. -/
def accKernel (_wg _size : Nat) (input : List Nat) (output : Nat) : Nat :=
  (output + input.sum) % 4294967296

/-- Lines 36-39 as a trial on the memory. -/
def cpuTrial (n : Nat) (_iter : Nat) (m : Mem) : Option (Nat × Mem) :=
  match scalarSum n m.as with
  | none => none
  | some sum => some (sum, m)

/-- Lines 50-54 as a trial on the memory; `sched iter` is the schedule the
OpenMP runtime picks in trial `iter`. -/
def ompTrial (sched : Nat → List (List Nat)) (iter : Nat) (m : Mem) : Option (Nat × Mem) :=
  match ompSum (sched iter) m.as with
  | none => none
  | some sum => some (sum, m)

/-! ## Benchmark driver -/

/-- The three strategies, in the order `main` runs them. -/
inductive Strategy where
  | cpu
  | omp
  | gpu
  deriving DecidableEq, Repr

/-- How a run ends: normally, by the exception `raiseFail` throws, by the
`std::length_error` that `as.resize` throws, or in undefined behaviour. -/
inductive Outcome where
  | finished
  | thrown (what : String)
  | length_error
  | undefined
  deriving DecidableEq, Repr

/-- What a run leaves behind: the trials that were run (the block and the
value of `iter`), the laps recorded by `nextLap()` (the block's timer and the
trial), the lines on `std::cout` (their label; the figures after it are
wall-clock measurements), and the text on `std::cerr`. -/
structure Log where
  trials : List (Strategy × Nat)
  laps : List (Strategy × Nat)
  out : List String
  err : String
  deriving DecidableEq, Repr

/-- Message of the block's `EXPECT_THE_SAME`. -/
def Strategy.message : Strategy → String
  | Strategy.cpu => "CPU result should be consistent!"
  | Strategy.omp => "CPU OpenMP result should be consistent!"
  | Strategy.gpu => "GPU result should be consistent!"

/-- Value of `__LINE__` at the block's `EXPECT_THE_SAME`. -/
def Strategy.line : Strategy → Int
  | Strategy.cpu => 40
  | Strategy.omp => 55
  | Strategy.gpu => 87

/-- Label of the block's two report lines. -/
def Strategy.label : Strategy → String
  | Strategy.cpu => "CPU:     "
  | Strategy.omp => "CPU OMP: "
  | Strategy.gpu => "GPU:     "

/-- The log of a run that has not started. -/
def emptyLog : Log :=
  { trials := [], laps := [], out := [], err := "" }

/-- The loop `for (int iter = 0; iter < benchmarkingIters; ++iter)` of a block
with `k` trials left: run the trial, `EXPECT_THE_SAME(reference_sum, sum, ...)`,
then `nextLap()`. An exception leaves the loop at once; both counters are `int`
and `iter` stays below `benchmarkingIters`, so `++iter` does not overflow. -/
def trialLoop (s : Strategy) (reference_sum : Nat) (file : String)
    (trial : Nat → Mem → Option (Nat × Mem)) : Nat → Nat → Mem → Log → Outcome × Mem × Log
  | 0, _, m, l => (Outcome.finished, m, l)
  | k + 1, iter, m, l =>
    let l1 := { l with trials := l.trials ++ [(s, iter)] }
    match trial iter m with
    | none => (Outcome.undefined, m, l1)
    | some (sum, m') =>
      match raiseFail reference_sum sum s.message file s.line with
      | (text, Except.error what) => (Outcome.thrown what, m', { l1 with err := l1.err ++ text })
      | (text, Except.ok _) =>
        trialLoop s reference_sum file trial k (iter + 1) m'
          { l1 with laps := l1.laps ++ [(s, iter)], err := l1.err ++ text }

/-- One benchmarking block: the trials, then the two report lines. -/
def block (s : Strategy) (reference_sum : Nat) (file : String) (benchmarkingIters : Nat)
    (trial : Nat → Mem → Option (Nat × Mem)) (m : Mem) (l : Log) : Outcome × Mem × Log :=
  match trialLoop s reference_sum file trial benchmarkingIters 0 m l with
  | (Outcome.finished, m', l') =>
    (Outcome.finished, m', { l' with out := l'.out ++ [s.label, s.label] })
  | stopped => stopped

/-- Lines 33-93 with the three trials as parameters: the CPU block, the OpenMP
block, the device set-up and the device block. An exception ends the run where
it is thrown. -/
def benchmark (reference_sum : Nat) (file : String) (benchmarkingIters n work_group_size : Nat)
    (cpu omp gpu : Nat → Mem → Option (Nat × Mem)) (m : Mem) (l : Log) :
    Outcome × Mem × Log :=
  match block Strategy.cpu reference_sum file benchmarkingIters cpu m l with
  | (Outcome.finished, m1, l1) =>
    match block Strategy.omp reference_sum file benchmarkingIters omp m1 l1 with
    | (Outcome.finished, m2, l2) =>
      match gpuSetup n work_group_size m2 with
      | none => (Outcome.length_error, m2, l2)
      | some m3 => block Strategy.gpu reference_sum file benchmarkingIters gpu m3 l2
    | stopped => stopped
  | stopped => stopped

/-- The function `main`, with the constants `n` (100000000 in the source),
`benchmarkingIters` (10) and `work_group_size` (128) as parameters. Device
selection, context set-up and kernel compilation are taken to succeed. `cs0`
is what the fresh cell of `cs_gpu` holds. -/
def main {σ : Type} (next : σ → Nat → Nat → Int × σ) (r : σ)
    (sched : Nat → List (List Nat)) (kernel : Nat → Nat → List Nat → Nat → Nat) (cs0 : Nat)
    (file : String) (benchmarkingIters n work_group_size : Nat) : Outcome × Mem × Log :=
  match generate next n r with
  | none => (Outcome.undefined, { as := [], as_gpu := [], cs_gpu := cs0 }, emptyLog)
  | some (as, reference_sum, _) =>
    benchmark reference_sum file benchmarkingIters n work_group_size
      (cpuTrial n) (ompTrial sched) (gpuTrial kernel n work_group_size)
      { as := as, as_gpu := [], cs_gpu := cs0 } emptyLog

/-! ## Notions the statements use -/

/-- The kernel's contract on a zeroed output cell: run over any work size on
any input buffer, it leaves the sum of the buffer's elements, taken modulo
`2^32`, the width of the cell. -/
def KernelContract (kernel : Nat → Nat → List Nat → Nat → Nat) : Prop :=
  ∀ (wg size : Nat) (input : List Nat), kernel wg size input 0 = input.sum % 4294967296

/-- Fault injection: element `i` of the padded `as` is replaced by `v` before
the upload. -/
def corrupt (i v : Nat) (m : Mem) : Mem :=
  { m with as := m.as.set i v }

/-- The sum that trial number `k` of a block computes, counted from trial
`iter` on memory `m`, with the memory handed from each trial to the next. -/
def trialAt (trial : Nat → Mem → Option (Nat × Mem)) : Nat → Nat → Mem → Option Nat
  | 0, iter, m => (trial iter m).map Prod.fst
  | k + 1, iter, m =>
    match trial iter m with
    | none => none
    | some (_, m') => trialAt trial k (iter + 1) m'

/-- A sample generator for the examples: it returns `lo + s % (hi - lo + 1)`,
a value of `[lo, hi]`, and steps its state `s` as a linear congruential
generator does. -/
def sampleNext (s lo hi : Nat) : Int × Nat :=
  (((lo + s % (hi - lo + 1) : Nat) : Int), (s * 1103515245 + 12345) % 2147483648)

/-- A sample schedule for the examples, the same in every trial: one worker has
the odd indices below `n`, the other the even ones. -/
def sampleSched (n : Nat) (_iter : Nat) : List (List Nat) :=
  [(List.range n).filter (fun i => i % 2 = 1), (List.range n).filter (fun i => i % 2 = 0)]

/-- Position of a strategy in the order `main` runs the blocks. -/
def Strategy.rank : Strategy → Nat
  | Strategy.cpu => 0
  | Strategy.omp => 1
  | Strategy.gpu => 2

/-- The strategies whose block comes before the block of `s`. -/
def Strategy.earlier (s : Strategy) : List Strategy :=
  [Strategy.cpu, Strategy.omp, Strategy.gpu].filter (fun s' => s'.rank < s.rank)

/-- A trial that yields the sum `res iter` and leaves the memory as it is:
the trials of a block as far as the driver's control flow sees them. -/
def resultTrial (res : Nat → Nat) (iter : Nat) (m : Mem) : Option (Nat × Mem) :=
  some (res iter, m)

/-! ## The counting loop: lemmas -/

theorem forInt_overflow {α : Type} (n : Nat) (body : Nat → α → Option α) (hn : INT_MAX < n) :
    ∀ (k i : Nat) (acc : α), i ≤ INT_MAX → forInt n body k i acc = none := by
  intro k
  induction k with
  | zero =>
    intro i acc hi
    have : i < n := by omega
    simp [forInt, this]
  | succ k ih =>
    intro i acc hi
    have hlt : i < n := by omega
    simp only [forInt, hlt, if_true]
    cases hb : body i acc with
    | none => rfl
    | some acc' =>
      by_cases he : i = INT_MAX
      · simp [he]
      · simp only [he, if_false]
        exact ih (i + 1) acc' (by omega)

theorem forInt_eq_forEach {α : Type} (n : Nat) (body : Nat → α → Option α) (hn : n ≤ INT_MAX) :
    ∀ (k i : Nat) (acc : α), i + k = n →
      forInt n body k i acc = forEach body (List.range' i k) acc := by
  intro k
  induction k with
  | zero =>
    intro i acc h
    have : ¬ i < n := by omega
    simp [forInt, forEach, this]
  | succ k ih =>
    intro i acc h
    have hlt : i < n := by omega
    have hne : i ≠ INT_MAX := by omega
    simp only [forInt, hlt, if_true, List.range'_succ, forEach]
    cases hb : body i acc with
    | none => rfl
    | some acc' =>
      simp only [hne, if_false]
      exact ih (i + 1) acc' (by omega)

/-- The counting loop from 0 either overflows its counter or runs its body on
0, 1, ..., n-1. -/
theorem forInt_zero {α : Type} (n : Nat) (body : Nat → α → Option α) (acc : α) :
    forInt n body n 0 acc = if n ≤ INT_MAX then forEach body (List.range n) acc else none := by
  by_cases hn : n ≤ INT_MAX
  · simp only [hn, if_true, List.range_eq_range']
    exact forInt_eq_forEach n body hn n 0 acc (by omega)
  · simp only [hn, if_false]
    exact forInt_overflow n body (by omega) n 0 acc (by simp [INT_MAX])

theorem forEach_append {α : Type} (body : Nat → α → Option α) :
    ∀ (xs ys : List Nat) (acc : α),
      forEach body (xs ++ ys) acc =
        match forEach body xs acc with
        | none => none
        | some acc' => forEach body ys acc' := by
  intro xs
  induction xs with
  | nil => intro ys acc; simp [forEach]
  | cons x xs ih =>
    intro ys acc
    simp only [List.cons_append, forEach]
    cases hb : body x acc with
    | none => rfl
    | some acc' => exact ih ys acc'

/-- An invariant of the loop state that every step carries from index `j` to
`j + 1` holds at the end of a run over `i, i+1, ..., i+k-1`. -/
theorem forEach_range'_inv {α : Type} (body : Nat → α → Option α) (P : Nat → α → Prop) :
    ∀ (k i : Nat) (acc out : α),
      (∀ j a a', i ≤ j → j < i + k → P j a → body j a = some a' → P (j + 1) a') →
      P i acc → forEach body (List.range' i k) acc = some out → P (i + k) out := by
  intro k
  induction k with
  | zero =>
    intro i acc out _ h0 h
    simp only [List.range'_zero, forEach, Option.some.injEq] at h
    subst h
    simpa using h0
  | succ k ih =>
    intro i acc out hstep h0 h
    simp only [List.range'_succ, forEach] at h
    cases hb : body i acc with
    | none => simp [hb] at h
    | some acc' =>
      simp only [hb] at h
      have h1 : P (i + 1) acc' := hstep i acc acc' (le_refl i) (by omega) h0 hb
      have := ih (i + 1) acc' out
        (fun j a a' hj hj' hp hbj => hstep j a a' (by omega) (by omega) hp hbj) h1 h
      have e : i + 1 + k = i + (k + 1) := by omega
      rw [e] at this
      exact this

/-! ## Sums of lists read through indices -/

theorem map_get_range (as : List Nat) : ∀ n, n ≤ as.length →
    (List.range n).map (fun i => (as[i]?).getD 0) = as.take n := by
  induction as with
  | nil => intro n h; simp at h; subst h; simp
  | cons a t ih =>
    intro n h
    cases n with
    | zero => simp
    | succ n =>
      rw [List.range_succ_eq_map]
      have := ih n (by simpa using h)
      simp [Function.comp_def, this]

theorem sum_set_zero (as : List Nat) (i x : Nat) (hi : i < as.length) (h0 : as[i]? = some 0) :
    (as.set i x).sum = as.sum + x := by
  rw [List.sum_set]
  simp only [hi, if_true]
  have h1 : as = as.take i ++ (as[i] :: as.drop (i + 1)) := by
    simp
  have h2 : as[i] = 0 := by
    rw [List.getElem?_eq_getElem hi] at h0
    simpa using h0
  have h3 : as.sum = (as.take i).sum + (as.drop (i + 1)).sum := by
    conv_lhs => rw [h1]
    simp [h2]
  omega

theorem uadd_lt (s a : Nat) : uadd s a < 4294967296 := by
  unfold uadd
  omega

theorem toUInt_lt (v : Int) : toUInt v < 4294967296 := by
  unfold toUInt
  omega

/-- A worker whose indices all lie inside `as` returns the wrapped sum of the
elements it was given. -/
theorem sliceSum_some (as : List Nat) :
    ∀ (idxs : List Nat) (acc : Nat), (∀ i ∈ idxs, i < as.length) → acc < 4294967296 →
      sliceSum as idxs acc
        = some ((acc + (idxs.map (fun i => (as[i]?).getD 0)).sum) % 4294967296) := by
  intro idxs
  induction idxs with
  | nil =>
    intro acc _ hacc
    simp [sliceSum, forEach, Nat.mod_eq_of_lt hacc]
  | cons i rest ih =>
    intro acc hb hacc
    have hi : i < as.length := hb i (List.mem_cons_self i rest)
    have hrest : ∀ j ∈ rest, j < as.length := fun j hj => hb j (List.mem_cons_of_mem i hj)
    have hget : as[i]? = some as[i] := List.getElem?_eq_getElem hi
    have := ih (uadd acc as[i]) hrest (uadd_lt _ _)
    simp only [sliceSum] at this
    simp only [sliceSum, forEach, sumStep, hget]
    rw [this]
    simp only [List.map_cons, List.sum_cons, hget, Option.getD_some, Option.some.injEq, uadd]
    omega

/-- A worker that returns a sum read only indices inside `as`. -/
theorem sliceSum_bounds (as : List Nat) :
    ∀ (idxs : List Nat) (acc s : Nat), sliceSum as idxs acc = some s →
      ∀ i ∈ idxs, i < as.length := by
  intro idxs
  induction idxs with
  | nil => intro acc s _ i hi; simp at hi
  | cons j rest ih =>
    intro acc s h i hi
    simp only [sliceSum, forEach, sumStep] at h
    cases hg : as[j]? with
    | none => simp [hg] at h
    | some a =>
      simp only [hg] at h
      rcases List.mem_cons.mp hi with rfl | hmem
      · by_contra hcon
        have : as[i]? = none := List.getElem?_eq_none (by omega)
        simp [this] at hg
      · exact ih (uadd acc a) s h i hmem

/-- The scalar reducer returns a sum exactly when its counter does not overflow and
`as` has at least `n` elements; the sum is that of the first `n` elements modulo
`2^32`. -/
theorem scalarSum_eq_some (n : Nat) (as : List Nat) (s : Nat) :
    scalarSum n as = some s ↔
      n ≤ INT_MAX ∧ n ≤ as.length ∧ s = (as.take n).sum % 4294967296 := by
  unfold scalarSum
  rw [forInt_zero]
  by_cases hn : n ≤ INT_MAX
  · simp only [hn, if_true, true_and]
    constructor
    · intro h
      have hb := sliceSum_bounds as (List.range n) 0 s h
      have hlen : n ≤ as.length := by
        cases n with
        | zero => omega
        | succ k => exact hb k (by simp)
      have hs := sliceSum_some as (List.range n) 0
        (fun i hi => by have := List.mem_range.mp hi; omega) (by omega)
      simp only [sliceSum] at hs
      rw [hs, map_get_range as n hlen] at h
      simp only [Option.some.injEq, Nat.zero_add] at h
      exact ⟨hlen, h.symm⟩
    · rintro ⟨hlen, rfl⟩
      have hs := sliceSum_some as (List.range n) 0
        (fun i hi => by have := List.mem_range.mp hi; omega) (by omega)
      simp only [sliceSum] at hs
      rw [hs, map_get_range as n hlen]
      simp
  · simp [hn]

/-! ## Generator loop: what it returns -/

/-- What the generator loop returns: `n` values below `2^32` and their sum
modulo `2^32`; its counter did not overflow. -/
theorem generate_some {σ : Type} (next : σ → Nat → Nat → Int × σ) (n : Nat) (r r' : σ)
    (as : List Nat) (ref : Nat) (h : generate next n r = some (as, ref, r')) :
    n ≤ INT_MAX ∧ as.length = n ∧ ref = as.sum % 4294967296 ∧ ∀ a ∈ as, a < 4294967296 := by
  unfold generate at h
  rw [forInt_zero] at h
  by_cases hn : n ≤ INT_MAX
  swap
  · simp [hn] at h
  simp only [hn, if_true, List.range_eq_range'] at h
  have key := forEach_range'_inv (genStep next n)
    (fun j st => st.1.length = n ∧ st.2.1 = st.1.sum % 4294967296 ∧
      (∀ t, j ≤ t → t < n → st.1[t]? = some 0) ∧ ∀ a ∈ st.1, a < 4294967296)
    n 0 (List.replicate n 0, 0, r) (as, ref, r')
    (by
      rintro j ⟨xs, acc, g⟩ ⟨xs', acc', g'⟩ _ hj ⟨hlen, hsum, hzero, hlt⟩ hstep
      simp only [genStep] at hstep
      simp only at hlen hsum hzero hlt
      have hjl : j < xs.length := by omega
      rw [List.getElem?_set_self hjl] at hstep
      simp only [Option.some.injEq, Prod.mk.injEq] at hstep
      obtain ⟨rfl, rfl, rfl⟩ := hstep
      refine ⟨by simpa using hlen, ?_, ?_, ?_⟩
      · simp only at hsum ⊢
        rw [sum_set_zero xs j _ hjl (hzero j (le_refl j) (by omega)), hsum]
        unfold uadd
        omega
      · intro t ht htn
        simp only at hzero ⊢
        rw [List.getElem?_set]
        have : ¬ j = t := by omega
        simp only [this, if_false]
        exact hzero t (by omega) htn
      · intro a ha
        rcases List.mem_or_eq_of_mem_set ha with hm | rfl
        · exact hlt a hm
        · exact toUInt_lt _)
    (by
      refine ⟨by simp, by simp, ?_, ?_⟩
      · intro t _ htn
        simp [List.getElem?_replicate, htn]
      · intro a ha
        have := List.eq_of_mem_replicate ha
        omega)
    h
  exact ⟨hn, key.1, key.2.1, key.2.2.2⟩

/-! ## The driver: lemmas -/

/-- Laps a block records for the trials `iter, ..., iter + k - 1`. -/
theorem trialLoop_pass (s : Strategy) (ref : Nat) (file : String)
    (trial : Nat → Mem → Option (Nat × Mem)) (m : Mem) :
    ∀ (k iter : Nat) (l : Log), (∀ j, j < k → trial (iter + j) m = some (ref, m)) →
      trialLoop s ref file trial k iter m l =
        (Outcome.finished, m,
          { l with
            trials := l.trials ++ (List.range' iter k).map (fun j => (s, j))
            laps := l.laps ++ (List.range' iter k).map (fun j => (s, j)) }) := by
  intro k
  induction k with
  | zero => intro iter l _; simp [trialLoop]
  | succ k ih =>
    intro iter l h
    have h0 : trial iter m = some (ref, m) := by simpa using h 0 (by omega)
    have hrest : ∀ j, j < k → trial (iter + 1 + j) m = some (ref, m) := by
      intro j hj
      have := h (j + 1) (by omega)
      have e : iter + 1 + j = iter + (j + 1) := by omega
      rw [e]
      exact this
    simp only [trialLoop, h0, raiseFail, ne_eq, not_true_eq_false, if_false]
    rw [ih (iter + 1) _ hrest]
    simp [List.range'_succ]

/-- A block stops at the first trial whose sum differs from the reference. -/
theorem trialLoop_fail (s : Strategy) (ref : Nat) (file : String)
    (trial : Nat → Mem → Option (Nat × Mem)) (m m' : Mem) (x : Nat) (hx : ref ≠ x) :
    ∀ (j k iter : Nat) (l : Log), j < k →
      (∀ t, t < j → trial (iter + t) m = some (ref, m)) →
      trial (iter + j) m = some (x, m') →
      trialLoop s ref file trial k iter m l =
        (Outcome.thrown s.message, m',
          { l with
            trials := l.trials ++ (List.range' iter (j + 1)).map (fun t => (s, t))
            laps := l.laps ++ (List.range' iter j).map (fun t => (s, t))
            err := l.err ++ (raiseFail ref x s.message file s.line).1 }) := by
  intro j
  induction j with
  | zero =>
    intro k iter l hk _ hj
    obtain ⟨k, rfl⟩ : ∃ k', k = k' + 1 := ⟨k - 1, by omega⟩
    simp only [Nat.add_zero] at hj
    simp [trialLoop, hj, raiseFail, hx]
  | succ j ih =>
    intro k iter l hk hpass hj
    obtain ⟨k, rfl⟩ : ∃ k', k = k' + 1 := ⟨k - 1, by omega⟩
    have h0 : trial iter m = some (ref, m) := by simpa using hpass 0 (by omega)
    have hrest : ∀ t, t < j → trial (iter + 1 + t) m = some (ref, m) := by
      intro t ht
      have := hpass (t + 1) (by omega)
      have e : iter + 1 + t = iter + (t + 1) := by omega
      rw [e]
      exact this
    have hj' : trial (iter + 1 + j) m = some (x, m') := by
      have e : iter + 1 + j = iter + (j + 1) := by omega
      rw [e]
      exact hj
    simp only [trialLoop, h0, raiseFail, ne_eq, not_true_eq_false, if_false]
    rw [ih k (iter + 1) _ (by omega) hrest hj']
    simp [List.range'_succ, raiseFail, hx]

/-! ## Padded length: lemmas -/

/-- Without wraparound the padded length is the plain quotient formula. -/
theorem n_gpu_eq (n W : Nat) (hW : 0 < W) (h : n + W - 1 < SIZE_RANGE) :
    n_gpu n W = (n + W - 1) / W * W := by
  have h1 : ((n + W) % SIZE_RANGE + SIZE_RANGE - 1) % SIZE_RANGE = n + W - 1 := by
    unfold SIZE_RANGE at *
    omega
  have h2 : (n + W - 1) / W * W ≤ n + W - 1 := Nat.div_mul_le_self _ _
  unfold n_gpu
  rw [h1]
  exact Nat.mod_eq_of_lt (by omega)

theorem n_gpu_ge (n W : Nat) (hW : 0 < W) (h : n + W - 1 < SIZE_RANGE) : n ≤ n_gpu n W := by
  rw [n_gpu_eq n W hW h]
  have h1 := Nat.div_add_mod (n + W - 1) W
  have h2 := Nat.mod_lt (n + W - 1) hW
  rw [Nat.mul_comm]
  omega

theorem n_gpu_lt (n W : Nat) (hW : 0 < W) (h : n + W - 1 < SIZE_RANGE) :
    n_gpu n W < n + W := by
  rw [n_gpu_eq n W hW h]
  have h2 : (n + W - 1) / W * W ≤ n + W - 1 := Nat.div_mul_le_self _ _
  omega

theorem n_gpu_dvd (n W : Nat) (hW : 0 < W) (h : n + W - 1 < SIZE_RANGE) : W ∣ n_gpu n W := by
  rw [n_gpu_eq n W hW h]
  exact Dvd.intro_left _ rfl

theorem n_gpu_least (n W : Nat) (hW : 0 < W) (h : n + W - 1 < SIZE_RANGE) (m : Nat)
    (hd : W ∣ m) (hm : n ≤ m) : n_gpu n W ≤ m := by
  rw [n_gpu_eq n W hW h]
  obtain ⟨c, rfl⟩ := hd
  have h2 : (n + W - 1) / W * W ≤ n + W - 1 := Nat.div_mul_le_self _ _
  rw [Nat.mul_comm] at h2
  rw [Nat.mul_comm]
  by_contra hcon
  have hlt : c < (n + W - 1) / W := by
    by_contra hge
    exact hcon (Nat.mul_le_mul_left W (by omega))
  have h3 : W * (c + 1) ≤ W * ((n + W - 1) / W) := Nat.mul_le_mul_left W hlt
  rw [Nat.mul_succ] at h3
  omega

theorem n_gpu_of_dvd (n W : Nat) (hW : 0 < W) (h : n + W - 1 < SIZE_RANGE) (hd : W ∣ n) :
    n_gpu n W = n :=
  Nat.le_antisymm (n_gpu_least n W hW h n hd (le_refl n)) (n_gpu_ge n W hW h)

/-! ## OpenMP reduction: lemmas -/

/-- Workers whose indices all lie inside `as` combine to the wrapped sum of
all the elements they were given. -/
theorem combine_some (as : List Nat) :
    ∀ (slices : List (List Nat)) (acc : Nat), (∀ i ∈ slices.flatten, i < as.length) →
      acc < 4294967296 →
      combine as slices acc
        = some ((acc + (slices.flatten.map (fun i => (as[i]?).getD 0)).sum) % 4294967296) := by
  intro slices
  induction slices with
  | nil =>
    intro acc _ hacc
    simp [combine, Nat.mod_eq_of_lt hacc]
  | cons slice rest ih =>
    intro acc hb hacc
    have h1 : ∀ i ∈ slice, i < as.length := fun i hi => hb i (by simp [hi])
    have h2 : ∀ i ∈ rest.flatten, i < as.length := fun i hi =>
      hb i (by rw [List.flatten_cons]; exact List.mem_append_right _ hi)
    simp only [combine, sliceSum_some as slice 0 h1 (by omega), Nat.zero_add]
    rw [ih _ h2 (uadd_lt _ _)]
    simp only [List.flatten_cons, List.map_append, List.sum_append, uadd, Option.some.injEq]
    omega

/-- Under a schedule that covers the indices below `n`, the parallel loop
returns the sum of the first `n` elements modulo `2^32`. -/
theorem ompSum_of_covers (n : Nat) (as : List Nat) (slices : List (List Nat))
    (hc : Covers slices n) (hlen : n ≤ as.length) :
    ompSum slices as = some ((as.take n).sum % 4294967296) := by
  unfold Covers at hc
  have hb : ∀ i ∈ slices.flatten, i < as.length := by
    intro i hi
    have := List.mem_range.mp (hc.mem_iff.mp hi)
    omega
  unfold ompSum
  rw [combine_some as slices 0 hb (by omega)]
  have hp := (hc.map (fun i => (as[i]?).getD 0)).sum_eq
  rw [hp, map_get_range as n hlen]
  simp

/-! ## Device reducer: lemmas -/

theorem resizeN_length (buf : List Nat) (k : Nat) : (resizeN buf k).length = k := by
  unfold resizeN
  simp only [List.length_append, List.length_take, List.length_replicate]
  omega

/-- A resize to at least the present length and at most `max_size()` appends. -/
theorem resize_of_le (v : List Nat) (k x : Nat) (h : v.length ≤ k) (hmax : k ≤ max_size) :
    resize v k x = some (v ++ List.replicate (k - v.length) x) := by
  unfold resize
  rw [if_pos hmax, List.take_of_length_le h]

/-- The upload copies a host vector of the padded length as it is. -/
theorem upload_as_gpu (n W : Nat) (m : Mem) (h : m.as.length = n_gpu n W) :
    (upload n W m).as_gpu = m.as := by
  simp only [upload, writeN]
  have h1 : List.take (n_gpu n W) m.as = m.as := List.take_of_length_le (by omega)
  have h2 : List.drop (n_gpu n W) (resizeN m.as_gpu (n_gpu n W)) = [] :=
    List.drop_of_length_le (by rw [resizeN_length])
  rw [h1, h2, List.append_nil]

/-- Lines 70-71 on a vector of `n` elements, when the padded length is at most
`max_size()`: zeros are appended to `as` up to the padded length. -/
theorem pad_some (n W : Nat) (m : Mem) (hlen : m.as.length = n) (hW : 0 < W)
    (h : n + W - 1 < SIZE_RANGE) (hmax : n_gpu n W ≤ max_size) :
    pad n W m = some { m with as := m.as ++ List.replicate (n_gpu n W - n) 0 } := by
  have hge := n_gpu_ge n W hW h
  simp only [pad]
  rw [resize_of_le _ _ _ (by omega) hmax, hlen]

/-- The set-up throws exactly when the padded length exceeds `max_size()`. -/
theorem gpuSetup_eq_none (n W : Nat) (m : Mem) :
    gpuSetup n W m = none ↔ max_size < n_gpu n W := by
  simp only [gpuSetup, pad, resize]
  by_cases h : n_gpu n W ≤ max_size
  · simp [h]
  · simp only [h, if_false]
    constructor
    · intro _; omega
    · intro _; trivial

/-- The set-up leaves the elements of `as` it keeps as they were. -/
theorem gpuSetup_as (n W : Nat) (m m' : Mem) (h : gpuSetup n W m = some m') :
    m'.as = m.as.take (n_gpu n W) ++ List.replicate (n_gpu n W - m.as.length) 0 := by
  simp only [gpuSetup, pad, resize] at h
  by_cases hk : n_gpu n W ≤ max_size
  · simp only [hk, if_true, Option.some.injEq] at h
    subst h
    simp [upload]
  · simp [hk] at h

theorem accKernel_contract : KernelContract accKernel := by
  intro wg size input
  simp [accKernel]

theorem sum_set_add (l : List Nat) (i v : Nat) (hi : i < l.length) :
    (l.set i v).sum + l[i] = l.sum + v := by
  rw [List.sum_set]
  simp only [hi, if_true]
  have h1 : l = l.take i ++ (l[i] :: l.drop (i + 1)) := by
    simp
  have h3 : l.sum = (l.take i).sum + l[i] + (l.drop (i + 1)).sum := by
    conv_lhs => rw [h1]
    simp only [List.sum_append, List.sum_cons]
    omega
  omega

/-- A loop over `i, i+1, ..., i+k-1` whose body is defined on every state of an
invariant it keeps returns a state. -/
theorem forEach_range'_returns {α : Type} (body : Nat → α → Option α) (P : Nat → α → Prop) :
    ∀ (k i : Nat) (acc : α),
      (∀ j a, i ≤ j → j < i + k → P j a → ∃ a', body j a = some a' ∧ P (j + 1) a') →
      P i acc → ∃ out, forEach body (List.range' i k) acc = some out := by
  intro k
  induction k with
  | zero => intro i acc _ _; exact ⟨acc, by simp [forEach]⟩
  | succ k ih =>
    intro i acc hstep h0
    obtain ⟨a', hb, hp⟩ := hstep i acc (le_refl i) (by omega) h0
    obtain ⟨out, hout⟩ := ih (i + 1) a'
      (fun j a hj hj' hpj => hstep j a (by omega) (by omega) hpj) hp
    exact ⟨out, by simp only [List.range'_succ, forEach, hb]; exact hout⟩

/-- The generator loop returns a sequence for every count up to `INT_MAX`,
whatever the generator. -/
theorem generate_returns {σ : Type} (next : σ → Nat → Nat → Int × σ) (n : Nat) (r : σ)
    (hn : n ≤ INT_MAX) : ∃ out, generate next n r = some out := by
  unfold generate
  rw [forInt_zero]
  simp only [hn, if_true, List.range_eq_range']
  refine forEach_range'_returns (genStep next n) (fun _ st => st.1.length = n) n 0 _ ?_
    (by simp)
  rintro j ⟨xs, acc, g⟩ _ hj hlen
  simp only at hlen
  have hjl : j < xs.length := by omega
  refine ⟨(xs.set j (toUInt (next g 0 (UINT_MAX / n)).1),
    uadd acc (toUInt (next g 0 (UINT_MAX / n)).1), (next g 0 (UINT_MAX / n)).2), ?_, ?_⟩
  · simp only [genStep]
    rw [List.getElem?_set_self hjl]
  · simpa using hlen

/-! ## Generated sequences: the scalar reducer -/

/-- On a sequence the generator loop produced, the scalar reducer returns the
reference sum. -/
theorem scalarSum_generated {σ : Type} (next : σ → Nat → Nat → Int × σ) (n : Nat)
    (r r' : σ) (as : List Nat) (reference_sum : Nat)
    (h : generate next n r = some (as, reference_sum, r')) :
    scalarSum n as = some reference_sum := by
  obtain ⟨hn, hlen, href, _⟩ := generate_some next n r r' as reference_sum h
  rw [scalarSum_eq_some]
  refine ⟨hn, by omega, ?_⟩
  rw [href, ← hlen, List.take_length]

/-! ## Trials and the vector `as`: lemmas -/

/-- A trial that returns `v` on every memory of a set it does not leave
returns `v` in every round. -/
theorem trialAt_of_invariant (trial : Nat → Mem → Option (Nat × Mem)) (P : Mem → Prop)
    (v : Nat) (hP : ∀ iter m, P m → ∃ m', trial iter m = some (v, m') ∧ P m') :
    ∀ (k iter : Nat) (m : Mem), P m → trialAt trial k iter m = some v := by
  intro k
  induction k with
  | zero =>
    intro iter m hm
    obtain ⟨m', h, _⟩ := hP iter m hm
    simp [trialAt, h]
  | succ k ih =>
    intro iter m hm
    obtain ⟨m', h, hm'⟩ := hP iter m hm
    simp only [trialAt, h]
    exact ih (iter + 1) m' hm'

/-! ## Blocks: lemmas -/

/-- A block whose trials all return the reference sum records every lap and
prints its two report lines. -/
theorem block_pass (s : Strategy) (ref : Nat) (file : String) (iters : Nat)
    (trial : Nat → Mem → Option (Nat × Mem)) (m : Mem) (l : Log)
    (h : ∀ j, j < iters → trial j m = some (ref, m)) :
    block s ref file iters trial m l =
      (Outcome.finished, m,
        { trials := l.trials ++ (List.range iters).map (fun j => (s, j))
          laps := l.laps ++ (List.range iters).map (fun j => (s, j))
          out := l.out ++ [s.label, s.label]
          err := l.err }) := by
  simp only [block]
  rw [trialLoop_pass s ref file trial m iters 0 l (fun j hj => by simpa using h j hj)]
  simp [List.range_eq_range']

/-- A block stops at its first trial that returns another sum: the laps of the
trials before it are recorded, the diagnostic is written, nothing is printed. -/
theorem block_fail (s : Strategy) (ref : Nat) (file : String) (iters : Nat)
    (trial : Nat → Mem → Option (Nat × Mem)) (m m' : Mem) (l : Log) (x j : Nat)
    (hx : ref ≠ x) (hj : j < iters) (hpass : ∀ t, t < j → trial t m = some (ref, m))
    (hfail : trial j m = some (x, m')) :
    block s ref file iters trial m l =
      (Outcome.thrown s.message, m',
        { trials := l.trials ++ (List.range (j + 1)).map (fun t => (s, t))
          laps := l.laps ++ (List.range j).map (fun t => (s, t))
          out := l.out
          err := l.err ++ (raiseFail ref x s.message file s.line).1 }) := by
  simp only [block]
  rw [trialLoop_fail s ref file trial m m' x hx j iters 0 l hj
    (fun t ht => by simpa using hpass t ht) (by simpa using hfail)]
  simp [List.range_eq_range']

/-- Membership in the list of all trials of the strategies before `s`
followed by the first `k` trials of `s`. -/
theorem mem_runs (s : Strategy) (iters k : Nat) (s2 : Strategy) (t : Nat) :
    (s2, t) ∈ s.earlier.flatMap (fun s' => (List.range iters).map (fun t => (s', t)))
        ++ (List.range k).map (fun t => (s, t))
      ↔ (s2.rank < s.rank ∧ t < iters) ∨ (s2 = s ∧ t < k) := by
  have hall : s2 ∈ [Strategy.cpu, Strategy.omp, Strategy.gpu] := by
    cases s2 <;> simp
  simp only [List.mem_append, List.mem_flatMap, List.mem_map, List.mem_range, Prod.mk.injEq,
    Strategy.earlier, List.mem_filter, decide_eq_true_eq]
  constructor
  · rintro (⟨s', ⟨_, hr⟩, t', ht', rfl, rfl⟩ | ⟨t', ht', rfl, rfl⟩)
    · exact Or.inl ⟨hr, ht'⟩
    · exact Or.inr ⟨rfl, ht'⟩
  · rintro (⟨hr, ht⟩ | ⟨rfl, ht⟩)
    · exact Or.inl ⟨s2, ⟨hall, hr⟩, t, ht, rfl, rfl⟩
    · exact Or.inr ⟨t, ht, rfl, rfl⟩

/-- The run when the CPU block fails at its trial `j`. -/
theorem benchmark_cpu_fail (ref : Nat) (file : String) (iters n W : Nat)
    (cpu omp gpu : Nat → Mem → Option (Nat × Mem)) (m m' : Mem) (l : Log) (x j : Nat)
    (hx : ref ≠ x) (hj : j < iters) (hpass : ∀ t, t < j → cpu t m = some (ref, m))
    (hfail : cpu j m = some (x, m')) :
    benchmark ref file iters n W cpu omp gpu m l =
      (Outcome.thrown Strategy.cpu.message, m',
        { trials := l.trials ++ (List.range (j + 1)).map (fun t => (Strategy.cpu, t))
          laps := l.laps ++ (List.range j).map (fun t => (Strategy.cpu, t))
          out := l.out
          err := l.err ++
            (raiseFail ref x Strategy.cpu.message file Strategy.cpu.line).1 }) := by
  simp only [benchmark]
  rw [block_fail Strategy.cpu ref file iters cpu m m' l x j hx hj hpass hfail]

/-- The run when the CPU block passes and the OpenMP block fails at its
trial `j`. -/
theorem benchmark_omp_fail (ref : Nat) (file : String) (iters n W : Nat)
    (cpu omp gpu : Nat → Mem → Option (Nat × Mem)) (m m' : Mem) (l : Log) (x j : Nat)
    (hx : ref ≠ x) (hj : j < iters) (hcpu : ∀ t, t < iters → cpu t m = some (ref, m))
    (hpass : ∀ t, t < j → omp t m = some (ref, m)) (hfail : omp j m = some (x, m')) :
    benchmark ref file iters n W cpu omp gpu m l =
      (Outcome.thrown Strategy.omp.message, m',
        { trials := l.trials ++ (List.range iters).map (fun t => (Strategy.cpu, t))
            ++ (List.range (j + 1)).map (fun t => (Strategy.omp, t))
          laps := l.laps ++ (List.range iters).map (fun t => (Strategy.cpu, t))
            ++ (List.range j).map (fun t => (Strategy.omp, t))
          out := l.out ++ [Strategy.cpu.label, Strategy.cpu.label]
          err := l.err ++
            (raiseFail ref x Strategy.omp.message file Strategy.omp.line).1 }) := by
  simp only [benchmark]
  rw [block_pass Strategy.cpu ref file iters cpu m l hcpu]
  simp only
  rw [block_fail Strategy.omp ref file iters omp m m' _ x j hx hj hpass hfail]

/-- The run when the CPU and OpenMP blocks pass, the device set-up succeeds and
the device block fails at its trial `j`. -/
theorem benchmark_gpu_fail (ref : Nat) (file : String) (iters n W : Nat)
    (cpu omp gpu : Nat → Mem → Option (Nat × Mem)) (m m' : Mem) (l : Log) (x j : Nat)
    (hx : ref ≠ x) (hj : j < iters) (hcpu : ∀ t, t < iters → cpu t m = some (ref, m))
    (homp : ∀ t, t < iters → omp t m = some (ref, m))
    (mg : Mem) (hsetup : gpuSetup n W m = some mg)
    (hpass : ∀ t, t < j → gpu t mg = some (ref, mg))
    (hfail : gpu j mg = some (x, m')) :
    benchmark ref file iters n W cpu omp gpu m l =
      (Outcome.thrown Strategy.gpu.message, m',
        { trials := l.trials ++ (List.range iters).map (fun t => (Strategy.cpu, t))
            ++ (List.range iters).map (fun t => (Strategy.omp, t))
            ++ (List.range (j + 1)).map (fun t => (Strategy.gpu, t))
          laps := l.laps ++ (List.range iters).map (fun t => (Strategy.cpu, t))
            ++ (List.range iters).map (fun t => (Strategy.omp, t))
            ++ (List.range j).map (fun t => (Strategy.gpu, t))
          out := l.out ++ [Strategy.cpu.label, Strategy.cpu.label]
            ++ [Strategy.omp.label, Strategy.omp.label]
          err := l.err ++
            (raiseFail ref x Strategy.gpu.message file Strategy.gpu.line).1 }) := by
  simp only [benchmark]
  rw [block_pass Strategy.cpu ref file iters cpu m l hcpu]
  simp only
  rw [block_pass Strategy.omp ref file iters omp m _ homp]
  simp only [hsetup]
  rw [block_fail Strategy.gpu ref file iters gpu mg m' _ x j hx hj hpass hfail]

/-- The run when the device set-up succeeds and every trial of the three blocks
returns the reference sum: every lap is recorded and the six report lines are
printed. -/
theorem benchmark_pass (ref : Nat) (file : String) (iters n W : Nat)
    (cpu omp gpu : Nat → Mem → Option (Nat × Mem)) (m : Mem) (l : Log)
    (hcpu : ∀ t, t < iters → cpu t m = some (ref, m))
    (homp : ∀ t, t < iters → omp t m = some (ref, m))
    (mg : Mem) (hsetup : gpuSetup n W m = some mg)
    (hgpu : ∀ t, t < iters → gpu t mg = some (ref, mg)) :
    benchmark ref file iters n W cpu omp gpu m l =
      (Outcome.finished, mg,
        { trials := l.trials ++ (List.range iters).map (fun t => (Strategy.cpu, t))
            ++ (List.range iters).map (fun t => (Strategy.omp, t))
            ++ (List.range iters).map (fun t => (Strategy.gpu, t))
          laps := l.laps ++ (List.range iters).map (fun t => (Strategy.cpu, t))
            ++ (List.range iters).map (fun t => (Strategy.omp, t))
            ++ (List.range iters).map (fun t => (Strategy.gpu, t))
          out := l.out ++ [Strategy.cpu.label, Strategy.cpu.label]
            ++ [Strategy.omp.label, Strategy.omp.label]
            ++ [Strategy.gpu.label, Strategy.gpu.label]
          err := l.err }) := by
  simp only [benchmark]
  rw [block_pass Strategy.cpu ref file iters cpu m l hcpu]
  simp only
  rw [block_pass Strategy.omp ref file iters omp m _ homp]
  simp only [hsetup]
  rw [block_pass Strategy.gpu ref file iters gpu mg _ hgpu]

/-- The run when the CPU and OpenMP blocks pass and `as.resize` throws: no
device trial runs and no device report is printed. -/
theorem benchmark_length_error (ref : Nat) (file : String) (iters n W : Nat)
    (cpu omp gpu : Nat → Mem → Option (Nat × Mem)) (m : Mem) (l : Log)
    (hcpu : ∀ t, t < iters → cpu t m = some (ref, m))
    (homp : ∀ t, t < iters → omp t m = some (ref, m))
    (hsetup : gpuSetup n W m = none) :
    benchmark ref file iters n W cpu omp gpu m l =
      (Outcome.length_error, m,
        { trials := l.trials ++ (List.range iters).map (fun t => (Strategy.cpu, t))
            ++ (List.range iters).map (fun t => (Strategy.omp, t))
          laps := l.laps ++ (List.range iters).map (fun t => (Strategy.cpu, t))
            ++ (List.range iters).map (fun t => (Strategy.omp, t))
          out := l.out ++ [Strategy.cpu.label, Strategy.cpu.label]
            ++ [Strategy.omp.label, Strategy.omp.label]
          err := l.err }) := by
  simp only [benchmark]
  rw [block_pass Strategy.cpu ref file iters cpu m l hcpu]
  simp only
  rw [block_pass Strategy.omp ref file iters omp m _ homp]
  simp only [hsetup]

/-- An instance where line 71 throws: with `n = 1` and the work-group size
`2^62` the padded length `2^62` exceeds `max_size()`, the set-up throws
`std::length_error`, and a run of `main` ends with that exception after the
OpenMP report, with `as` as generated and no device trial run. -/
theorem gpuSetup_throws_example :
    n_gpu 1 4611686018427387904 = 4611686018427387904 ∧
    gpuSetup 1 4611686018427387904 { as := [7], as_gpu := [], cs_gpu := 0 } = none ∧
    (main sampleNext 42 (sampleSched 1) accKernel 0 "main_sum.cpp" 2 1
      4611686018427387904).1 = Outcome.length_error ∧
    (main sampleNext 42 (sampleSched 1) accKernel 0 "main_sum.cpp" 2 1
      4611686018427387904).2.1.as = [42] ∧
    (main sampleNext 42 (sampleSched 1) accKernel 0 "main_sum.cpp" 2 1
      4611686018427387904).2.2.trials
      = [(Strategy.cpu, 0), (Strategy.cpu, 1), (Strategy.omp, 0), (Strategy.omp, 1)] :=
  ⟨by decide, by decide, by decide, by decide, by decide⟩

/-! ## The claims -/

/-- C1: whenever the generator loop produces the sequence `as` with
`reference_sum`, for any count `n` and any generator, the scalar reducer
returns exactly `reference_sum`; the check of the CPU block writes nothing and
returns normally, and the CPU block runs all its trials and prints its
report. -/
theorem C1_scalar_equals_reference {σ : Type} (next : σ → Nat → Nat → Int × σ) (n : Nat)
    (r r' : σ) (as : List Nat) (reference_sum : Nat)
    (h : generate next n r = some (as, reference_sum, r')) :
    scalarSum n as = some reference_sum ∧
    (∀ file : String,
      raiseFail reference_sum reference_sum Strategy.cpu.message file Strategy.cpu.line
        = ("", Except.ok ())) ∧
    (∀ (file : String) (benchmarkingIters : Nat) (m : Mem) (l : Log), m.as = as →
      block Strategy.cpu reference_sum file benchmarkingIters (cpuTrial n) m l =
        (Outcome.finished, m,
          { trials := l.trials
              ++ (List.range benchmarkingIters).map (fun j => (Strategy.cpu, j))
            laps := l.laps ++ (List.range benchmarkingIters).map (fun j => (Strategy.cpu, j))
            out := l.out ++ [Strategy.cpu.label, Strategy.cpu.label]
            err := l.err })) := by
  have hs : scalarSum n as = some reference_sum :=
    scalarSum_generated next n r r' as reference_sum h
  refine ⟨hs, ?_, ?_⟩
  · intro file
    simp [raiseFail]
  · intro file iters m l hm
    have ht : ∀ j, j < iters → cpuTrial n (0 + j) m = some (reference_sum, m) := by
      intro j _
      simp [cpuTrial, hm, hs]
    exact block_pass Strategy.cpu reference_sum file iters (cpuTrial n) m l
      (fun j hj => by simpa using ht j hj)

/-- C1, at an instance: the sample generator with seed 42 and `n = 3`. -/
theorem C1_scalar_equals_reference_witness :
    generate sampleNext 3 42 = some ([42, 1250496027, 1116302264], 2366798333, 1000676753) ∧
    scalarSum 3 [42, 1250496027, 1116302264] = some 2366798333 :=
  ⟨by decide,
   (C1_scalar_equals_reference sampleNext 3 42 1000676753 [42, 1250496027, 1116302264]
      2366798333 (by decide)).1⟩

/-- C2: for every count `n` (the range `1 ≤ n ≤ 2^32 - 1` is not needed) and
`n` values that are each at most `UINT_MAX / n`, the bound passed to `r.next`,
the exact sum is at most `UINT_MAX`, and so is every running sum, so no
`reference_sum += as[i]` wraps; the `reference_sum` the generator loop returns
with such a sequence is the exact sum. -/
theorem C2_sum_fits (n : Nat) (as : List Nat)
    (hlen : as.length = n) (hb : ∀ a ∈ as, a ≤ UINT_MAX / n) :
    as.sum ≤ UINT_MAX ∧
    (∀ k, (as.take k).sum ≤ UINT_MAX ∧
      uadd (as.take k).sum ((as[k]?).getD 0) = (as.take k).sum + (as[k]?).getD 0) ∧
    (∀ (σ : Type) (next : σ → Nat → Nat → Int × σ) (r r' : σ) (reference_sum : Nat),
      generate next n r = some (as, reference_sum, r') → reference_sum = as.sum) := by
  have hsum : as.sum ≤ UINT_MAX := by
    have := List.sum_le_card_nsmul as (UINT_MAX / n) hb
    rw [hlen, smul_eq_mul] at this
    exact le_trans this (Nat.mul_div_le UINT_MAX n)
  have htake : ∀ k, (as.take k).sum ≤ as.sum := by
    intro k
    conv_rhs => rw [← List.take_append_drop k as]
    rw [List.sum_append]
    omega
  refine ⟨hsum, ?_, ?_⟩
  · intro k
    refine ⟨le_trans (htake k) hsum, ?_⟩
    have hk : (as.take k).sum + (as[k]?).getD 0 ≤ UINT_MAX := by
      by_cases hk : k < as.length
      · have := htake (k + 1)
        rw [List.take_succ, List.sum_append] at this
        have e : (as[k]?).toList.sum = (as[k]?).getD 0 := by
          rw [List.getElem?_eq_getElem hk]
          simp
        omega
      · have hnone : as[k]? = none := List.getElem?_eq_none (by omega)
        rw [hnone]
        simpa using le_trans (htake k) hsum
    unfold uadd
    unfold UINT_MAX at hk
    omega
  · intro σ next r r' ref hgen
    obtain ⟨_, _, href, _⟩ := generate_some next n r r' as ref hgen
    unfold UINT_MAX at hsum
    omega

/-- C2, at the program's count: `n = 100000000` gives the bound 42, and the
largest sequence within it, a hundred million times 42, sums to 4200000000. -/
theorem C2_sum_fits_witness :
    UINT_MAX / 100000000 = 42 ∧
    (List.replicate 100000000 42).sum = 4200000000 ∧
    (List.replicate 100000000 42).sum ≤ UINT_MAX :=
  ⟨by decide, by rw [List.sum_replicate, smul_eq_mul],
   (C2_sum_fits 100000000 (List.replicate 100000000 42)
      (List.length_replicate _ _)
      (fun a ha => by
        rw [List.eq_of_mem_replicate ha]
        decide)).1⟩

/-- C3: for every sequence, every schedule of the parallel loop whose slices
together hold each index below `n` exactly once, however many workers it has
and in whatever order their sums are combined, the OpenMP reduction returns
exactly the sum the scalar reducer returns. -/
theorem C3_omp_equals_scalar (n : Nat) (as : List Nat) (slices : List (List Nat)) (sum : Nat)
    (hc : Covers slices n) (hs : scalarSum n as = some sum) :
    ompSum slices as = some sum := by
  obtain ⟨_, hlen, rfl⟩ := (scalarSum_eq_some n as sum).mp hs
  exact ompSum_of_covers n as slices hc hlen

/-- C3, at instances: five elements summed by 1, 2, 5 and 8 workers, the slices
contiguous or strided and combined in different orders, and a sum that
wraps. -/
theorem C3_omp_equals_scalar_witness :
    scalarSum 5 [4294967295, 2, 3, 4, 5] = some 13 ∧
    ompSum [[0, 1, 2, 3, 4]] [4294967295, 2, 3, 4, 5] = some 13 ∧
    ompSum [[3, 4], [0, 1, 2]] [4294967295, 2, 3, 4, 5] = some 13 ∧
    ompSum [[1, 3], [4, 2, 0]] [4294967295, 2, 3, 4, 5] = some 13 ∧
    ompSum [[4], [2], [0], [1], [3]] [4294967295, 2, 3, 4, 5] = some 13 ∧
    ompSum [[0], [], [1], [2], [], [3], [4], []] [4294967295, 2, 3, 4, 5] = some 13 :=
  ⟨by decide,
   C3_omp_equals_scalar 5 _ [[0, 1, 2, 3, 4]] 13 (by unfold Covers; decide) (by decide),
   by decide, by decide, by decide,
   C3_omp_equals_scalar 5 _ [[0], [], [1], [2], [], [3], [4], []] 13
     (by unfold Covers; decide) (by decide)⟩

/-- C5: `raiseFail` throws exactly when `a != b`. When the values differ it
writes `message But a != b, filename:line` and a line end to `std::cerr` and
throws an error whose `what()` is `message`; when they are equal it writes
nothing and returns normally. -/
theorem C5_raiseFail {T : Type} [DecidableEq T] [ToString T] (a b : T)
    (message filename : String) (line : Int) :
    ((∃ what, (raiseFail a b message filename line).2 = Except.error what) ↔ a ≠ b) ∧
    (a ≠ b →
      raiseFail a b message filename line =
        (message ++ " But " ++ toString a ++ " != " ++ toString b ++ ", " ++ filename ++ ":"
          ++ toString line ++ "\n", Except.error message)) ∧
    (a = b → raiseFail a b message filename line = ("", Except.ok ())) := by
  by_cases h : a = b
  · simp [raiseFail, h]
  · simp [raiseFail, h]

/-- C6: for a positive work-group size `W` with `n + W - 1` below `2^64`, the
padded length is the least multiple of `W` that is at least `n`: `W` divides
it, `n ≤ n_gpu < n + W`, no multiple of `W` from `n` on is smaller, and it is `n`
itself when `W` divides `n`. -/
theorem C6_n_gpu_least_multiple (n W : Nat) (hW : 0 < W) (h : n + W - 1 < SIZE_RANGE) :
    W ∣ n_gpu n W ∧ n ≤ n_gpu n W ∧ n_gpu n W < n + W ∧
    (∀ m, W ∣ m → n ≤ m → n_gpu n W ≤ m) ∧
    (W ∣ n → n_gpu n W = n) :=
  ⟨n_gpu_dvd n W hW h, n_gpu_ge n W hW h, n_gpu_lt n W hW h, n_gpu_least n W hW h,
    n_gpu_of_dvd n W hW h⟩

/-- C6, at the program's constants: 128 divides 100000000, and the padded
length is 100000000. -/
theorem C6_n_gpu_least_multiple_witness :
    128 ∣ 100000000 ∧ n_gpu 100000000 128 = 100000000 :=
  ⟨by decide,
   (C6_n_gpu_least_multiple 100000000 128 (by decide) (by decide)).2.2.2.2 (by decide)⟩

/-- C7: for a sequence the generator loop produced, an index `i < n` and a
32-bit value `v` other than `as[i]`, when element `i` of the padded sequence is
replaced by `v` before the upload and the kernel meets its contract, the
padding (work-group size 128) does not throw, the device trial yields a
`gpu_sum` different from `reference_sum`, the check of the device block writes
its diagnostic and throws, and the block ends with that error without
recording a lap or printing a report. -/
theorem C7_fault_detected {σ : Type} (next : σ → Nat → Nat → Int × σ) (n : Nat) (r r' : σ)
    (as : List Nat) (reference_sum : Nat) (kernel : Nat → Nat → List Nat → Nat → Nat)
    (i v : Nat) (m : Mem) (hm : m.as = as)
    (hgen : generate next n r = some (as, reference_sum, r'))
    (hi : i < n) (hv : v < 4294967296) (hne : as[i]? ≠ some v) (hk : KernelContract kernel) :
    ∃ (mp : Mem) (gpu_sum : Nat) (m' : Mem),
      pad n 128 m = some mp ∧
      (∀ iter, gpuTrial kernel n 128 iter (upload n 128 (corrupt i v mp))
        = some (gpu_sum, m')) ∧
      gpu_sum ≠ reference_sum ∧
      (∀ file : String,
        raiseFail reference_sum gpu_sum Strategy.gpu.message file Strategy.gpu.line =
          (Strategy.gpu.message ++ " But " ++ toString reference_sum ++ " != "
            ++ toString gpu_sum ++ ", " ++ file ++ ":" ++ toString Strategy.gpu.line ++ "\n",
           Except.error Strategy.gpu.message)) ∧
      (∀ (file : String) (benchmarkingIters : Nat) (l : Log), 0 < benchmarkingIters →
        block Strategy.gpu reference_sum file benchmarkingIters (gpuTrial kernel n 128)
            (upload n 128 (corrupt i v mp)) l =
          (Outcome.thrown Strategy.gpu.message, m',
            { trials := l.trials ++ [(Strategy.gpu, 0)]
              laps := l.laps
              out := l.out
              err := l.err ++
                (raiseFail reference_sum gpu_sum Strategy.gpu.message file
                  Strategy.gpu.line).1 })) := by
  obtain ⟨hn, hlen, href, hlt⟩ := generate_some next n r r' as reference_sum hgen
  subst hm
  have hrep : n + 128 - 1 < SIZE_RANGE := by
    unfold INT_MAX at hn
    unfold SIZE_RANGE
    omega
  have hge := n_gpu_ge n 128 (by omega) hrep
  have hmax : n_gpu n 128 ≤ max_size := by
    have := n_gpu_lt n 128 (by omega) hrep
    unfold INT_MAX at hn
    unfold max_size
    omega
  have hp := pad_some n 128 m hlen (by omega) hrep hmax
  obtain ⟨mp, hmp⟩ : ∃ mp : Mem,
      mp = { m with as := m.as ++ List.replicate (n_gpu n 128 - n) 0 } := ⟨_, rfl⟩
  rw [← hmp] at hp
  have hpad : mp.as = m.as ++ List.replicate (n_gpu n 128 - n) 0 := by rw [hmp]
  have hcl : (corrupt i v mp).as.length = n_gpu n 128 := by
    simp only [corrupt, List.length_set]
    rw [hpad, List.length_append, List.length_replicate]
    omega
  have hbuf : (upload n 128 (corrupt i v mp)).as_gpu
      = (m.as ++ List.replicate (n_gpu n 128 - n) 0).set i v := by
    rw [upload_as_gpu n 128 _ hcl]
    simp only [corrupt]
    rw [hpad]
  have hil : i < m.as.length := by omega
  have hai : m.as[i] < 4294967296 := hlt _ (List.getElem_mem hil)
  have hav : m.as[i] ≠ v := by
    intro e
    apply hne
    rw [List.getElem?_eq_getElem hil, e]
  have hsum : ((m.as ++ List.replicate (n_gpu n 128 - n) 0).set i v).sum + m.as[i]
      = m.as.sum + v := by
    have hil' : i < (m.as ++ List.replicate (n_gpu n 128 - n) 0).length := by
      simp only [List.length_append]
      omega
    have := sum_set_add (m.as ++ List.replicate (n_gpu n 128 - n) 0) i v hil'
    rw [List.getElem_append_left hil] at this
    simpa using this
  have hdiff : ((m.as ++ List.replicate (n_gpu n 128 - n) 0).set i v).sum % 4294967296
      ≠ reference_sum := by
    rw [href]
    omega
  have htrial : ∀ iter, gpuTrial kernel n 128 iter (upload n 128 (corrupt i v mp))
      = some (((m.as ++ List.replicate (n_gpu n 128 - n) 0).set i v).sum % 4294967296,
          { upload n 128 (corrupt i v mp) with
            cs_gpu := ((m.as ++ List.replicate (n_gpu n 128 - n) 0).set i v).sum
              % 4294967296 }) := by
    intro iter
    simp only [gpuTrial]
    rw [hk, hbuf]
    simp
  refine ⟨mp, _, _, hp, htrial, hdiff, ?_, ?_⟩
  · intro file
    simp [raiseFail, Ne.symm hdiff]
  · intro file iters l hpos
    rw [block_fail Strategy.gpu reference_sum file iters (gpuTrial kernel n 128) _ _ l _ 0
      (Ne.symm hdiff) hpos (by intro t ht; omega) (htrial _)]
    simp [List.range_succ]

/-- C7, at an instance: the sample sequence of three elements, element 1
replaced by 7. -/
theorem C7_fault_detected_witness :
    generate sampleNext 3 42 = some ([42, 1250496027, 1116302264], 2366798333, 1000676753) ∧
    ∃ (mp : Mem) (gpu_sum : Nat) (m' : Mem),
      pad 3 128 { as := [42, 1250496027, 1116302264], as_gpu := [], cs_gpu := 0 } = some mp ∧
      (∀ iter, gpuTrial accKernel 3 128 iter (upload 3 128 (corrupt 1 7 mp))
        = some (gpu_sum, m')) ∧
      gpu_sum ≠ 2366798333 :=
  ⟨by decide,
   let ⟨mp, g, m', h0, h1, h2, _⟩ := C7_fault_detected sampleNext 3 42 1000676753
      [42, 1250496027, 1116302264] 2366798333 accKernel 1 7
      { as := [42, 1250496027, 1116302264], as_gpu := [], cs_gpu := 0 } rfl
      (by decide) (by decide) (by decide) (by decide) accKernel_contract
   ⟨mp, g, m', h0, h1, h2⟩⟩

/-- C8: let the trials return the sums `res s iter`, and let trial `j` of
strategy `s` be the first, in the order cpu, omp, gpu and then by trial index,
whose sum differs from `reference_sum`; when `s` is the device strategy, let
the padded length be at most `max_size()`, so that the device trials are
reached (it is with the program's work-group size 128 and any `unsigned int`
count). Then the run ends with the error of
that strategy's check. The trials run are exactly all trials of the earlier
strategies and the trials up to `j` of `s`: no later trial and no trial of a
later strategy runs. The laps recorded are exactly those of the trials run
except trial `j` of `s`, so each lap belongs to a trial whose sum passed the
check and none was recorded for the failed trial. The report lines printed are
exactly those of the earlier strategies: none with the label of `s` or of a
later strategy. The diagnostic of the failed check is all that was written to
`std::cerr`. -/
theorem C8_stops_at_first_failure (res : Strategy → Nat → Nat) (reference_sum : Nat)
    (file : String) (benchmarkingIters n W : Nat) (m : Mem) (s : Strategy) (j : Nat)
    (hj : j < benchmarkingIters) (hfail : res s j ≠ reference_sum)
    (hfirst : ∀ s' j', j' < benchmarkingIters → (s'.rank < s.rank ∨ (s' = s ∧ j' < j)) →
      res s' j' = reference_sum)
    (hsetup : s = Strategy.gpu → n_gpu n W ≤ max_size) :
    ∃ (m' : Mem) (l' : Log),
      benchmark reference_sum file benchmarkingIters n W (resultTrial (res Strategy.cpu))
          (resultTrial (res Strategy.omp)) (resultTrial (res Strategy.gpu)) m emptyLog
        = (Outcome.thrown s.message, m', l') ∧
      l'.trials = s.earlier.flatMap
            (fun s' => (List.range benchmarkingIters).map (fun t => (s', t)))
          ++ (List.range (j + 1)).map (fun t => (s, t)) ∧
      l'.laps = s.earlier.flatMap
            (fun s' => (List.range benchmarkingIters).map (fun t => (s', t)))
          ++ (List.range j).map (fun t => (s, t)) ∧
      l'.out = s.earlier.flatMap (fun s' => [s'.label, s'.label]) ∧
      l'.err = (raiseFail reference_sum (res s j) s.message file s.line).1 ∧
      (s, j) ∈ l'.trials ∧
      (∀ (s2 : Strategy) (t : Nat), (s2 = s ∧ j < t) ∨ s.rank < s2.rank →
        (s2, t) ∉ l'.trials) ∧
      (∀ (s2 : Strategy) (t : Nat), (s2, t) ∈ l'.laps →
        (s2, t) ∈ l'.trials ∧ res s2 t = reference_sum) ∧
      (∀ (s2 : Strategy) (t : Nat), (s2 = s ∧ j ≤ t) ∨ s.rank < s2.rank →
        (s2, t) ∉ l'.laps) ∧
      (∀ s2 : Strategy, s.rank ≤ s2.rank → s2.label ∉ l'.out) ∧
      (∀ s2 : Strategy, s2.rank < s.rank → s2.label ∈ l'.out) := by
  have hne : reference_sum ≠ res s j := Ne.symm hfail
  have hout : ∀ (l' : Log), l'.out = s.earlier.flatMap (fun s' => [s'.label, s'.label]) →
      (∀ s2 : Strategy, s.rank ≤ s2.rank → s2.label ∉ l'.out) ∧
      (∀ s2 : Strategy, s2.rank < s.rank → s2.label ∈ l'.out) := by
    intro l' hl
    rw [hl]
    refine ⟨?_, ?_⟩
    · intro s2 hle hmem
      obtain ⟨s', hs', ht⟩ := List.mem_flatMap.mp hmem
      simp only [Strategy.earlier, List.mem_filter, decide_eq_true_eq] at hs'
      have hlab : s2.label = s'.label := by simpa using ht
      have : s2 = s' := by
        cases s2 <;> cases s' <;> first | rfl | (exact absurd hlab (by decide))
      subst this
      omega
    · intro s2 hlt
      refine List.mem_flatMap.mpr ⟨s2, ?_, by simp⟩
      simp only [Strategy.earlier, List.mem_filter, decide_eq_true_eq]
      exact ⟨by cases s2 <;> simp, hlt⟩
  have hcpu : s.rank = 0 ∨ ∀ t, t < benchmarkingIters →
      resultTrial (res Strategy.cpu) t m = some (reference_sum, m) := by
    by_cases h0 : s.rank = 0
    · exact Or.inl h0
    · right
      intro t ht
      simp only [resultTrial]
      rw [hfirst Strategy.cpu t ht (Or.inl (by show 0 < s.rank; omega))]
  have hthis : ∀ (mem : Mem) (t : Nat), t < j →
      resultTrial (res s) t mem = some (reference_sum, mem) := by
    intro mem t ht
    simp only [resultTrial]
    rw [hfirst s t (by omega) (Or.inr ⟨rfl, ht⟩)]
  have hrun : ∃ (m' : Mem) (l' : Log),
      benchmark reference_sum file benchmarkingIters n W (resultTrial (res Strategy.cpu))
          (resultTrial (res Strategy.omp)) (resultTrial (res Strategy.gpu)) m emptyLog
        = (Outcome.thrown s.message, m', l') ∧
      l'.trials = s.earlier.flatMap
            (fun s' => (List.range benchmarkingIters).map (fun t => (s', t)))
          ++ (List.range (j + 1)).map (fun t => (s, t)) ∧
      l'.laps = s.earlier.flatMap
            (fun s' => (List.range benchmarkingIters).map (fun t => (s', t)))
          ++ (List.range j).map (fun t => (s, t)) ∧
      l'.out = s.earlier.flatMap (fun s' => [s'.label, s'.label]) ∧
      l'.err = (raiseFail reference_sum (res s j) s.message file s.line).1 := by
    cases s with
    | cpu =>
      exact ⟨m, _, benchmark_cpu_fail reference_sum file benchmarkingIters n W _ _ _ m m
        emptyLog (res Strategy.cpu j) j hne hj (hthis m) rfl,
        by simp [emptyLog, Strategy.earlier, Strategy.rank],
        by simp [emptyLog, Strategy.earlier, Strategy.rank],
        by simp [emptyLog, Strategy.earlier, Strategy.rank], by simp [emptyLog]⟩
    | omp =>
      have hc : ∀ t, t < benchmarkingIters →
          resultTrial (res Strategy.cpu) t m = some (reference_sum, m) := by
        rcases hcpu with h0 | h
        · simp [Strategy.rank] at h0
        · exact h
      exact ⟨m, _, benchmark_omp_fail reference_sum file benchmarkingIters n W _ _ _ m m
        emptyLog (res Strategy.omp j) j hne hj hc (hthis m) rfl,
        by simp [emptyLog, Strategy.earlier, Strategy.rank],
        by simp [emptyLog, Strategy.earlier, Strategy.rank],
        by simp [emptyLog, Strategy.earlier, Strategy.rank], by simp [emptyLog]⟩
    | gpu =>
      have hc : ∀ t, t < benchmarkingIters →
          resultTrial (res Strategy.cpu) t m = some (reference_sum, m) := by
        rcases hcpu with h0 | h
        · simp [Strategy.rank] at h0
        · exact h
      have ho : ∀ t, t < benchmarkingIters →
          resultTrial (res Strategy.omp) t m = some (reference_sum, m) := by
        intro t ht
        simp only [resultTrial]
        rw [hfirst Strategy.omp t ht (Or.inl (by simp [Strategy.rank]))]
      have hsome : ∃ mg, gpuSetup n W m = some mg := by
        cases h : gpuSetup n W m with
        | none =>
          have h1 := (gpuSetup_eq_none n W m).mp h
          have h2 := hsetup rfl
          omega
        | some mg => exact ⟨mg, rfl⟩
      obtain ⟨mg, hmg⟩ := hsome
      exact ⟨mg, _, benchmark_gpu_fail reference_sum file benchmarkingIters n W
        _ _ _ m mg emptyLog (res Strategy.gpu j) j hne hj hc ho mg hmg (hthis _) rfl,
        by simp [emptyLog, Strategy.earlier, Strategy.rank],
        by simp [emptyLog, Strategy.earlier, Strategy.rank],
        by simp [emptyLog, Strategy.earlier, Strategy.rank], by simp [emptyLog]⟩
  obtain ⟨m', l', h0, ht, h1, h2, h3⟩ := hrun
  have hmt := fun (s2 : Strategy) (t : Nat) => mem_runs s benchmarkingIters (j + 1) s2 t
  have hml := fun (s2 : Strategy) (t : Nat) => mem_runs s benchmarkingIters j s2 t
  refine ⟨m', l', h0, ht, h1, h2, h3, ?_, ?_, ?_, ?_, (hout l' h2).1, (hout l' h2).2⟩
  · rw [ht, hmt]
    exact Or.inr ⟨rfl, by omega⟩
  · intro s2 t hcase
    rw [ht, hmt]
    rintro (⟨hr, _⟩ | ⟨hs, hlt⟩)
    · rcases hcase with ⟨rfl, _⟩ | h
      · exact absurd hr (lt_irrefl _)
      · omega
    · rcases hcase with ⟨_, h⟩ | h
      · omega
      · subst hs
        exact absurd h (lt_irrefl _)
  · intro s2 t hmem
    rw [h1, hml] at hmem
    rw [ht, hmt]
    rcases hmem with ⟨hr, hlt⟩ | ⟨hs, hlt⟩
    · exact ⟨Or.inl ⟨hr, hlt⟩, hfirst s2 t hlt (Or.inl hr)⟩
    · exact ⟨Or.inr ⟨hs, by omega⟩, hfirst s2 t (by omega) (Or.inr ⟨hs, hlt⟩)⟩
  · intro s2 t hcase
    rw [h1, hml]
    rintro (⟨hr, _⟩ | ⟨hs, hlt⟩)
    · rcases hcase with ⟨rfl, _⟩ | h
      · exact absurd hr (lt_irrefl _)
      · omega
    · rcases hcase with ⟨_, h⟩ | h
      · omega
      · subst hs
        exact absurd h (lt_irrefl _)

/-- C8, at instances: three trials a block, the second OpenMP trial the first
to return a wrong sum; two trials a block, the second device trial the first
to return a wrong sum, the work-group size 128; and a run of `main` whose
kernel returns a wrong sum in the first device trial. -/
theorem C8_stops_at_first_failure_witness :
    (∃ (m' : Mem) (l' : Log),
      benchmark 9 "main_sum.cpp" 3 5 128
          (resultTrial (fun _ => 9)) (resultTrial (fun t => if t = 1 then 5 else 9))
          (resultTrial (fun _ => 9)) { as := [1, 1, 2, 2, 3], as_gpu := [], cs_gpu := 0 }
          emptyLog
        = (Outcome.thrown "CPU OpenMP result should be consistent!", m', l') ∧
      l'.trials = [(Strategy.cpu, 0), (Strategy.cpu, 1), (Strategy.cpu, 2), (Strategy.omp, 0),
        (Strategy.omp, 1)] ∧
      l'.laps = [(Strategy.cpu, 0), (Strategy.cpu, 1), (Strategy.cpu, 2), (Strategy.omp, 0)] ∧
      l'.out = ["CPU:     ", "CPU:     "]) ∧
    (n_gpu 5 128 ≤ max_size ∧
      ∃ (m' : Mem) (l' : Log),
        benchmark 9 "main_sum.cpp" 2 5 128
            (resultTrial (fun _ => 9)) (resultTrial (fun _ => 9))
            (resultTrial (fun t => if t = 1 then 5 else 9))
            { as := [1, 1, 2, 2, 3], as_gpu := [], cs_gpu := 0 } emptyLog
          = (Outcome.thrown "GPU result should be consistent!", m', l') ∧
        l'.trials = [(Strategy.cpu, 0), (Strategy.cpu, 1), (Strategy.omp, 0),
          (Strategy.omp, 1), (Strategy.gpu, 0), (Strategy.gpu, 1)] ∧
        l'.laps = [(Strategy.cpu, 0), (Strategy.cpu, 1), (Strategy.omp, 0),
          (Strategy.omp, 1), (Strategy.gpu, 0)] ∧
        l'.out = ["CPU:     ", "CPU:     ", "CPU OMP: ", "CPU OMP: "]) ∧
    (main sampleNext 42 (sampleSched 3) (fun _ _ _ _ => 5) 0 "main_sum.cpp" 2 3 128).1
      = Outcome.thrown "GPU result should be consistent!" ∧
    (main sampleNext 42 (sampleSched 3) (fun _ _ _ _ => 5) 0 "main_sum.cpp" 2 3 128).2.2.trials
      = [(Strategy.cpu, 0), (Strategy.cpu, 1), (Strategy.omp, 0), (Strategy.omp, 1),
        (Strategy.gpu, 0)] ∧
    (main sampleNext 42 (sampleSched 3) (fun _ _ _ _ => 5) 0 "main_sum.cpp" 2 3 128).2.2.laps
      = [(Strategy.cpu, 0), (Strategy.cpu, 1), (Strategy.omp, 0), (Strategy.omp, 1)] ∧
    (main sampleNext 42 (sampleSched 3) (fun _ _ _ _ => 5) 0 "main_sum.cpp" 2 3 128).2.2.out
      = ["CPU:     ", "CPU:     ", "CPU OMP: ", "CPU OMP: "] :=
  ⟨
    let ⟨m', l', h0, ht, h1, h2, _⟩ := C8_stops_at_first_failure
      (fun s t => if s = Strategy.omp ∧ t = 1 then 5 else 9) 9 "main_sum.cpp" 3 5 128
      { as := [1, 1, 2, 2, 3], as_gpu := [], cs_gpu := 0 } Strategy.omp 1
      (by decide) (by decide)
      (by
        intro s' j' _ h
        rcases h with h | ⟨rfl, h⟩
        · cases s' <;> simp [Strategy.rank] at h ⊢
        · have : j' ≠ 1 := by omega
          simp [this])
      (by intro h; cases h)
    ⟨m', l', by simpa [resultTrial] using h0, by rw [ht]; decide, by rw [h1]; decide,
      by rw [h2]; decide⟩,
    ⟨by decide,
      let ⟨m', l', h0, ht, h1, h2, _⟩ := C8_stops_at_first_failure
        (fun s t => if s = Strategy.gpu ∧ t = 1 then 5 else 9) 9 "main_sum.cpp" 2 5 128
        { as := [1, 1, 2, 2, 3], as_gpu := [], cs_gpu := 0 } Strategy.gpu 1
        (by decide) (by decide)
        (by
          intro s' j' _ h
          rcases h with h | ⟨rfl, h⟩
          · cases s' <;> simp [Strategy.rank] at h ⊢
          · have : j' ≠ 1 := by omega
            simp [this])
        (by intro _; decide)
      ⟨m', l', by simpa [resultTrial] using h0, by rw [ht]; decide, by rw [h1]; decide,
        by rw [h2]; decide⟩⟩,
   by decide, by decide, by decide, by decide⟩

/-- C9: the sum of trial number `k` of a block is the sum of its first trial,
for every `k`: for the scalar reducer; for the OpenMP reducer under schedules
that cover the indices, also when the schedule changes from trial to trial; and
for the device reducer with any kernel, whatever the cell of `cs_gpu` holds
when the block starts, since each trial writes 0 to the cell before the kernel
runs. With the accumulating kernel every trial yields the sum of the uploaded
buffer. -/
theorem C9_trials_agree (n W : Nat) (kernel : Nat → Nat → List Nat → Nat → Nat)
    (sched : Nat → List (List Nat)) (m : Mem) (k : Nat)
    (hs : ∀ iter, Covers (sched iter) n) (hlen : n ≤ m.as.length) :
    trialAt (cpuTrial n) k 0 m = trialAt (cpuTrial n) 0 0 m ∧
    trialAt (cpuTrial n) k 0 m = scalarSum n m.as ∧
    trialAt (ompTrial sched) k 0 m = trialAt (ompTrial sched) 0 0 m ∧
    trialAt (ompTrial sched) k 0 m = some ((m.as.take n).sum % 4294967296) ∧
    (∀ c : Nat, trialAt (gpuTrial kernel n W) k 0 { m with cs_gpu := c }
      = trialAt (gpuTrial kernel n W) 0 0 m) ∧
    (∀ c : Nat, trialAt (gpuTrial kernel n W) k 0 { m with cs_gpu := c }
      = some (kernel W (n_gpu n W) m.as_gpu 0 % 4294967296)) ∧
    (∀ c : Nat, trialAt (gpuTrial accKernel n W) k 0 { m with cs_gpu := c }
      = some (m.as_gpu.sum % 4294967296)) := by
  have hcpu : ∀ j, trialAt (cpuTrial n) j 0 m = scalarSum n m.as := by
    intro j
    cases hsc : scalarSum n m.as with
    | none =>
      cases j with
      | zero => simp [trialAt, cpuTrial, hsc]
      | succ j => simp [trialAt, cpuTrial, hsc]
    | some x =>
      exact trialAt_of_invariant (cpuTrial n) (fun m' => m' = m) x
        (fun iter m' hm' => ⟨m, by subst hm'; simp [cpuTrial, hsc], rfl⟩) j 0 m rfl
  have homp : ∀ j, trialAt (ompTrial sched) j 0 m = some ((m.as.take n).sum % 4294967296) := by
    intro j
    exact trialAt_of_invariant (ompTrial sched) (fun m' => m' = m) _
      (fun iter m' hm' => ⟨m, by
        subst hm'
        simp [ompTrial, ompSum_of_covers n m'.as (sched iter) (hs iter) hlen], rfl⟩) j 0 m rfl
  have hgpu : ∀ (kern : Nat → Nat → List Nat → Nat → Nat) (j c : Nat),
      trialAt (gpuTrial kern n W) j 0 { m with cs_gpu := c }
        = some (kern W (n_gpu n W) m.as_gpu 0 % 4294967296) := by
    intro kern j c
    exact trialAt_of_invariant (gpuTrial kern n W) (fun m' => m'.as_gpu = m.as_gpu) _
      (fun iter m' hm' => by
        have hb : m'.as_gpu = m.as_gpu := hm'
        exact ⟨{ m' with cs_gpu := kern W (n_gpu n W) m.as_gpu 0 % 4294967296 },
          by simp [gpuTrial, hb], hb⟩) j 0 _ rfl
  refine ⟨by rw [hcpu, hcpu], hcpu k, by rw [homp, homp], homp k, ?_, hgpu kernel k, ?_⟩
  · intro c
    rw [hgpu kernel k c]
    have := hgpu kernel 0 m.cs_gpu
    simpa using this.symm
  · intro c
    rw [hgpu accKernel k c]
    simp [accKernel]

/-- C9, at an instance: the fourth trial of each block on five elements, the
device cell holding 99 when the block starts. -/
theorem C9_trials_agree_witness :
    trialAt (cpuTrial 5) 3 0 { as := [4294967295, 2, 3, 4, 5], as_gpu := [1, 2, 3], cs_gpu := 0 }
      = some 13 ∧
    trialAt (ompTrial (sampleSched 5)) 3 0
      { as := [4294967295, 2, 3, 4, 5], as_gpu := [1, 2, 3], cs_gpu := 0 } = some 13 ∧
    trialAt (gpuTrial accKernel 5 4) 3 0
      { as := [4294967295, 2, 3, 4, 5], as_gpu := [1, 2, 3], cs_gpu := 99 } = some 6 :=
  ⟨by decide, by decide,
   (C9_trials_agree 5 4 accKernel (sampleSched 5)
      { as := [4294967295, 2, 3, 4, 5], as_gpu := [1, 2, 3], cs_gpu := 0 } 3
      (fun _ => by simp only [Covers, sampleSched]; decide) (by decide)).2.2.2.2.2.2 99⟩

end MainSum
